import Mathlib

/-!
Verification development for the marmotedu-sdk-go REST client SDK.

The Go sources are shallowly embedded: Go strings become Lean `String`
(sequences of characters; the repository only manipulates ASCII data in the
places the claims touch), byte slices become `List Nat` (each entry < 256),
`time.Duration` and other machine integers become `Int`/`Nat`, Go maps
`url.Values`/`http.Header` become association lists, pointers that may be nil
become `Option`, and fallible operations return `Except String`.  External
effects (file reads, URL parsing, x509 parsing, YAML decoding) are supplied by
explicit environment records.
-/

/-! ## Go standard-library helpers used by the SDK -/

/-- UTF-8 encoding of one character (Go strings are UTF-8 byte sequences). -/
def charUtf8 (c : Char) : List Nat :=
  let n := c.toNat
  if n < 128 then [n]
  else if n < 2048 then [192 + n / 64, 128 + n % 64]
  else if n < 65536 then [224 + n / 4096, 128 + (n / 64) % 64, 128 + n % 64]
  else [240 + n / 262144, 128 + (n / 4096) % 64, 128 + (n / 64) % 64, 128 + n % 64]

/-- The bytes of a Go string. -/
def utf8Bytes (s : String) : List Nat := (s.data.map charUtf8).flatten

/-- The standard base64 alphabet (Go `encoding/base64.StdEncoding`). -/
def base64Alphabet : List Char :=
  "ABCDEFGHIJKLMNOPQRSTUVWXYZabcdefghijklmnopqrstuvwxyz0123456789+/".data

def b64Char (n : Nat) : Char := base64Alphabet.getD n '='

/-- Go `base64.StdEncoding.EncodeToString`, on byte lists. -/
def base64EncodeList : List Nat → List Char
  | a :: b :: c :: rest =>
    b64Char (a / 4) :: b64Char ((a % 4) * 16 + b / 16) ::
      b64Char ((b % 16) * 4 + c / 64) :: b64Char (c % 64) :: base64EncodeList rest
  | [a, b] => [b64Char (a / 4), b64Char ((a % 4) * 16 + b / 16), b64Char ((b % 16) * 4), '=']
  | [a] => [b64Char (a / 4), b64Char ((a % 4) * 16), '=', '=']
  | [] => []

def base64Encode (bs : List Nat) : String := String.mk (base64EncodeList bs)

def b64Index (c : Char) : Option Nat := base64Alphabet.findIdx? (fun x => x == c)

/-- Go `base64.StdEncoding.DecodeString`: 4-character groups, `=` padding,
an error on a malformed input. -/
def base64DecodeList : List Char → Except String (List Nat)
  | [] => .ok []
  | c1 :: c2 :: c3 :: c4 :: rest =>
    match b64Index c1, b64Index c2 with
    | some i1, some i2 =>
      if c3 = '=' then
        if c4 = '=' ∧ rest = [] then .ok [i1 * 4 + i2 / 16]
        else .error "illegal base64 data"
      else
        match b64Index c3 with
        | some i3 =>
          if c4 = '=' then
            if rest = [] then .ok [i1 * 4 + i2 / 16, (i2 % 16) * 16 + i3 / 4]
            else .error "illegal base64 data"
          else
            match b64Index c4 with
            | some i4 =>
              match base64DecodeList rest with
              | .ok bs => .ok ([i1 * 4 + i2 / 16, (i2 % 16) * 16 + i3 / 4, (i3 % 4) * 64 + i4] ++ bs)
              | .error e => .error e
            | none => .error "illegal base64 data"
        | none => .error "illegal base64 data"
    | _, _ => .error "illegal base64 data"
  | _ => .error "illegal base64 data"

def base64Decode (s : String) : Except String (List Nat) := base64DecodeList s.data

/-- One step of Go `path.Clean`'s element processing: the stack is the cleaned
path so far, most recent element first. -/
def goCleanStack (rooted : Bool) (st : List String) (c : String) : List String :=
  if c = "" ∨ c = "." then st
  else if c = ".." then
    match st with
    | top :: rest => if top = ".." then c :: top :: rest else rest
    | [] => if rooted then [] else [c]
  else c :: st

/-- Go `path.Clean`: the lexically shortest equivalent of a slash-separated
path ("." for an empty result, no trailing slash, ".." collapsed). -/
def goClean (p : String) : String :=
  if p = "" then "."
  else
    let rooted := p.startsWith "/"
    let parts := ((p.splitOn "/").foldl (goCleanStack rooted) []).reverse
    let out := (if rooted then "/" else "") ++ String.intercalate "/" parts
    if out = "" then "." else out

/-- Go `path.Join`: drops empty elements, joins the rest with "/" and cleans. -/
def goJoin (elems : List String) : String :=
  let ne := elems.filter (fun e => e != "")
  if ne.isEmpty then "" else goClean (String.intercalate "/" ne)

/-- Splits a character list at the first occurrence of `sep` (none when `sep`
does not occur); `sep` is expected non-empty. -/
def splitFirstAux (sep : List Char) : List Char → Option (List Char × List Char)
  | [] => none
  | c :: rest =>
    if sep.isPrefixOf (c :: rest) then some ([], (c :: rest).drop sep.length)
    else
      match splitFirstAux sep rest with
      | some pr => some (c :: pr.1, pr.2)
      | none => none

/-- Go `strings.Contains`. -/
def goContains (s sub : String) : Bool :=
  if sub = "" then true else (splitFirstAux sub.data s.data).isSome

/-- Go `strings.SplitN(s, sep, 2)` for a non-empty separator. -/
def goSplitN2 (s sep : String) : List String :=
  match splitFirstAux sep.data s.data with
  | some pr => [String.mk pr.1, String.mk pr.2]
  | none => [s]

/-- Go `strings.ToLower` (the repository only lowercases ASCII resource
names). -/
def goToLower (s : String) : String := String.mk (s.data.map Char.toLower)

/-- Go `path/filepath.Base` with the slash separator. -/
def goBase (p : String) : String :=
  if p = "" then "."
  else
    let l := p.data.reverse.dropWhile (fun c => c == '/')
    let last := l.takeWhile (fun c => c != '/')
    if last = [] then "/" else String.mk last.reverse

def padZeros (s : String) (n : Nat) : String :=
  String.mk (List.replicate (n - s.length) '0') ++ s

/-- The fractional part (with leading ".", trailing zeros trimmed, or "") and
the integer part of `v` at `10 ^ prec`, as Go `time.Duration.String`'s
`fmtFrac` produces them. -/
def fracStr (v : Nat) (prec : Nat) : String × Nat :=
  let rest := v / 10 ^ prec
  let frac := v % 10 ^ prec
  if frac = 0 then ("", rest)
  else
    let ds := padZeros (toString frac) prec
    let trimmed := (ds.data.reverse.dropWhile (fun c => c == '0')).reverse
    ("." ++ String.mk trimmed, rest)

/-- Go `time.Duration.String` (duration in nanoseconds). -/
def durationString (d : Int) : String :=
  if d = 0 then "0s"
  else
    let u := d.natAbs
    let body :=
      if u < 1000 then toString u ++ "ns"
      else if u < 1000000 then
        let p := fracStr u 3
        toString p.2 ++ p.1 ++ "µs"
      else if u < 1000000000 then
        let p := fracStr u 6
        toString p.2 ++ p.1 ++ "ms"
      else
        let p := fracStr u 9
        let totalSecs := p.2
        let secPart := toString (totalSecs % 60) ++ p.1 ++ "s"
        let totalMins := totalSecs / 60
        let minPart := if totalMins > 0 then toString (totalMins % 60) ++ "m" else ""
        let hrs := totalMins / 60
        let hrPart := if hrs > 0 then toString hrs ++ "h" else ""
        hrPart ++ minPart ++ secPart
    if d < 0 then "-" ++ body else body

/-! ## Go maps from string to string list (`url.Values`, `http.Header`)

A Go map keeps one entry per key; the association lists below preserve that
shape (builder operations never create a duplicate key). -/

abbrev Values := List (String × List String)

/-- Go map lookup `m[k]` (a missing key yields the empty list). -/
def vget : Values → String → List String
  | [], _ => []
  | (k', l) :: rest, k => if k' == k then l else vget rest k

/-- Go `url.Values.Add`: `m[k] = append(m[k], v)` (a Go map has at most one
entry per key, so updating the first matching entry is the map update). -/
def vadd : Values → String → String → Values
  | [], k, v => [(k, [v])]
  | (k', l) :: rest, k, v =>
    if k' == k then (k', l ++ [v]) :: rest else (k', l) :: vadd rest k v

/-- Go `url.Values.Set`: `m[k] = [v]`. -/
def vset : Values → String → String → Values
  | [], k, v => [(k, [v])]
  | (k', l) :: rest, k, v =>
    if k' == k then (k', [v]) :: rest else (k', l) :: vset rest k v

/-- Go `url.Values.Del` / `http.Header.Del`. -/
def vdel (vs : Values) (k : String) : Values := vs.filter (fun p => p.1 != k)

/-- Go map assignment `m[k] = l`. -/
def vassign : Values → String → List String → Values
  | [], k, l => [(k, l)]
  | (k', l') :: rest, k, l =>
    if k' == k then (k', l) :: rest else (k', l') :: vassign rest k l

/-- The `for key, values := range m { for v := range values { out.Add } }`
copy loop of `Request.URL`. -/
def copyValues (vs : Values) : Values :=
  vs.foldl (fun q p => p.2.foldl (fun q' v => vadd q' p.1 v) q) []

/-- Every value stored under `k`, across all entries with that key. -/
def allVals (vs : Values) (k : String) : List String :=
  ((vs.filter (fun p => p.1 == k)).map (fun p => p.2)).flatten

/-! ## Package `rest`: client configuration and the request builder -/

namespace rest

structure GroupVersion where
  Group : String := ""
  Version : String := ""
deriving DecidableEq, Repr

/-- `tls.Config` (crypto/tls), restricted to the fields the SDK sets.
`RootCAs` keeps the PEM bytes handed to the cert pool; `GetClientCertificate`
records that the client-certificate callback was installed. -/
structure TLSCfg where
  MinVersion : Nat := 0
  InsecureSkipVerify : Bool := false
  ServerName : String := ""
  NextProtos : List String := []
  RootCAs : Option (List Nat) := none
  GetClientCertificate : Bool := false
deriving DecidableEq, Repr

/-- `tls.VersionTLS12` (0x0303). -/
def VersionTLS12 : Nat := 771

structure TLSClientConfig where
  Insecure : Bool := false
  ServerName : String := ""
  CertFile : String := ""
  KeyFile : String := ""
  CAFile : String := ""
  CertData : List Nat := []
  KeyData : List Nat := []
  CAData : List Nat := []
  NextProtos : List String := []
deriving DecidableEq, Repr

def TLSClientConfig.HasCA (c : TLSClientConfig) : Bool :=
  c.CAData.length != 0 || c.CAFile.length != 0

def TLSClientConfig.HasCertAuth (c : TLSClientConfig) : Bool :=
  (c.CertData.length != 0 || c.CertFile.length != 0) &&
    (c.KeyData.length != 0 || c.KeyFile.length != 0)

/-- `ContentConfig`; `Negotiator` is an interface value, modelled by whether it
is non-nil. -/
structure ContentConfig where
  ServiceName : String := ""
  AcceptContentTypes : String := ""
  ContentType : String := ""
  GroupVersion : Option rest.GroupVersion := none
  Negotiator : Bool := false
deriving DecidableEq, Repr

/-- `rest.Config`; the embedded `ContentConfig` and `TLSClientConfig` structs
become named fields. -/
structure Config where
  Host : String := ""
  APIPath : String := ""
  contentConfig : ContentConfig := {}
  Username : String := ""
  Password : String := ""
  SecretID : String := ""
  SecretKey : String := ""
  BearerToken : String := ""
  BearerTokenFile : String := ""
  tlsClientConfig : TLSClientConfig := {}
  UserAgent : String := ""
  Timeout : Int := 0
  MaxRetries : Int := 0
  RetryInterval : Int := 0
deriving DecidableEq, Repr

def Config.HasCA (c : Config) : Bool := c.tlsClientConfig.HasCA

def Config.HasCertAuth (c : Config) : Bool := c.tlsClientConfig.HasCertAuth

/-- `ClientContentConfig`. -/
structure ClientContentConfig where
  Username : String := ""
  Password : String := ""
  SecretID : String := ""
  SecretKey : String := ""
  BearerToken : String := ""
  BearerTokenFile : String := ""
  tlsClientConfig : TLSClientConfig := {}
  AcceptContentTypes : String := ""
  ContentType : String := ""
  GroupVersion : rest.GroupVersion := {}
  Negotiator : Bool := false
deriving DecidableEq, Repr

def ClientContentConfig.HasBasicAuth (c : ClientContentConfig) : Bool :=
  c.Username.length != 0

def ClientContentConfig.HasTokenAuth (c : ClientContentConfig) : Bool :=
  c.BearerToken.length != 0 || c.BearerTokenFile.length != 0

def ClientContentConfig.HasKeyAuth (c : ClientContentConfig) : Bool :=
  c.SecretID.length != 0 && c.SecretKey.length != 0

/-- The `authMethod` count of `NewRequest`: how many of the three credential
predicates hold. -/
def authMethodCount (c : ClientContentConfig) : Nat :=
  ([c.HasBasicAuth, c.HasTokenAuth, c.HasKeyAuth].filter id).length

/-- Modelled from the spec: the forked gorequest `SuperAgent`
(`third_party/forked/gorequest` is not among the given sources).  Only the
configuration recorded by the chained setters the SDK uses is modelled: the
TLS config, the overall timeout, the retry policy (`Retry(count, interval,
statuses...)` retries up to `count` times, waiting `interval`, only on the
listed response statuses), the do-not-clear flag and queued query objects. -/
structure SuperAgent where
  tlsCfg : Option TLSCfg := none
  timeout : Int := 0
  retryCount : Int := 0
  retryInterval : Int := 0
  retryStatuses : List Nat := []
  DoNotClearSuperAgent : Bool := false
  Header : Values := []
  queries : List String := []
deriving DecidableEq, Repr

/-- Modelled from the spec: `gorequest.New()`. -/
def SuperAgent.New : SuperAgent := {}

/-- Modelled from the spec: `SuperAgent.TLSClientConfig` stores the TLS
configuration on the agent. -/
def SuperAgent.TLSClientConfig (a : SuperAgent) (cfg : Option TLSCfg) : SuperAgent :=
  { a with tlsCfg := cfg }

/-- Modelled from the spec: `SuperAgent.Timeout` stores the overall timeout. -/
def SuperAgent.Timeout (a : SuperAgent) (d : Int) : SuperAgent := { a with timeout := d }

/-- Modelled from the spec: `SuperAgent.Retry` stores the retry policy. -/
def SuperAgent.Retry (a : SuperAgent) (count interval : Int) (statuses : List Nat) : SuperAgent :=
  { a with retryCount := count, retryInterval := interval, retryStatuses := statuses }

/-- Modelled from the spec: `SuperAgent.Query` queues a query object (the
model keeps an opaque serialized form). -/
def SuperAgent.Query (a : SuperAgent) (v : String) : SuperAgent :=
  { a with queries := a.queries ++ [v] }

/-- `net/url.URL`, restricted to the fields the SDK reads or writes.  `Query`
stands for the decoded `RawQuery` (`url.Values`); the final `RawQuery` string
is its encoding. -/
structure URLModel where
  Scheme : String := ""
  Host : String := ""
  Path : String := ""
  Query : Values := []
  Fragment : String := ""
deriving DecidableEq, Repr

structure RESTClient where
  base : Option URLModel := none
  group : String := ""
  versionedAPIPath : String := ""
  content : ClientContentConfig := {}
  Client : SuperAgent := {}
deriving DecidableEq, Repr

/-- `http.StatusInternalServerError`. -/
def StatusInternalServerError : Nat := 500

/-- The external effects of package `rest`: URL parsing, file reads and
x509 key-pair validation. -/
structure Env where
  urlParse : String → Except String URLModel
  readFile : String → Except String (List Nat)
  x509KeyPair : List Nat → List Nat → Except String Unit

structure Request where
  c : RESTClient
  timeout : Int := 0
  verb : String := ""
  pathPrefix : String := ""
  subpath : String := ""
  params : Values := []
  headers : Values := []
  resource : String := ""
  resourceName : String := ""
  subresource : String := ""
  err : Option String := none
  body : Option String := none
deriving DecidableEq, Repr

/-- Modelled from the spec: `auth.Sign` from marmotedu/component-base (an
external dependency) produces a signed JWT from the secret pair; the SDK and
the claims use its output opaquely, so a fixed injective-looking function of
the four arguments stands in for it. -/
def authSign (secretID secretKey audience issuer : String) : String :=
  "signed:" ++ secretID ++ ":" ++ secretKey ++ ":" ++ audience ++ ":" ++ issuer

def basicAuth (username password : String) : String :=
  base64Encode (utf8Bytes (username ++ ":" ++ password))

def Request.SetHeader (r : Request) (key : String) (values : List String) : Request :=
  let h := vdel r.headers key
  { r with headers := values.foldl (fun h' v => vadd h' key v) h }

def authConflictMsg : String :=
  "username/password or bearer token or secretID/secretKey may be set, but should use only one of them"

def NewRequest (c : RESTClient) : Request :=
  let pathPrefix :=
    match c.base with
    | some base => goJoin ["/", base.Path, c.versionedAPIPath]
    | none => goJoin ["/", c.versionedAPIPath]
  let r : Request := { c := c, pathPrefix := pathPrefix }
  if authMethodCount c.content > 1 then { r with err := some authConflictMsg }
  else
    let r :=
      if c.content.HasTokenAuth then
        r.SetHeader "Authorization" ["Bearer " ++ c.content.BearerToken]
      else if c.content.HasKeyAuth then
        r.SetHeader "Authorization"
          ["Bearer " ++
            authSign c.content.SecretID c.content.SecretKey "marmotedu-sdk-go"
              (c.group ++ ".marmotedu.com")]
      else if c.content.HasBasicAuth then
        r.SetHeader "Authorization" ["Basic " ++ basicAuth c.content.Username c.content.Password]
      else r
    if c.content.AcceptContentTypes.length != 0 then
      r.SetHeader "Accept" [c.content.AcceptContentTypes]
    else if c.content.ContentType.length != 0 then
      r.SetHeader "Accept" [c.content.ContentType ++ ", */*"]
    else r

def NameMayNotBe : List String := [".", ".."]

def NameMayNotContain : List String := ["/", "%"]

def IsValidPathSegmentName (name : String) : List String :=
  match NameMayNotBe.find? (fun ill => name == ill) with
  | some ill => ["may not be '" ++ ill ++ "'"]
  | none =>
    NameMayNotContain.filterMap (fun ill =>
      if goContains name ill then some ("may not contain '" ++ ill ++ "'") else none)

def Request.Verb (r : Request) (verb : String) : Request := { r with verb := verb }

def Request.Prefix (r : Request) (segments : List String) : Request :=
  if r.err.isSome then r
  else { r with pathPrefix := goJoin [r.pathPrefix, goJoin segments] }

def Request.Suffix (r : Request) (segments : List String) : Request :=
  if r.err.isSome then r
  else { r with subpath := goJoin [r.subpath, goJoin segments] }

def Request.Resource (r : Request) (resource : String) : Request :=
  if r.err.isSome then r
  else if r.resource.length != 0 then
    { r with err := some ("resource already set to " ++ r.resource ++ ", cannot change to " ++ resource) }
  else if IsValidPathSegmentName resource ≠ [] then
    { r with err := some ("invalid resource " ++ resource) }
  else { r with resource := resource }

def Request.SubResource (r : Request) (subresources : List String) : Request :=
  if r.err.isSome then r
  else
    let subresource := goJoin subresources
    if r.subresource.length != 0 then
      { r with err := some ("subresource already set to " ++ r.resource ++ ", cannot change to " ++ subresource) }
    else if subresources.any (fun s => !(IsValidPathSegmentName s).isEmpty) then
      { r with err := some "invalid subresource" }
    else { r with subresource := subresource }

def Request.Name (r : Request) (resourceName : String) : Request :=
  if r.err.isSome then r
  else if resourceName.length = 0 then
    { r with err := some "resource name may not be empty" }
  else if r.resourceName.length != 0 then
    { r with err := some ("resource name already set to " ++ r.resourceName ++ ", cannot change to " ++ resourceName) }
  else if IsValidPathSegmentName resourceName ≠ [] then
    { r with err := some ("invalid resource name " ++ resourceName) }
  else { r with resourceName := resourceName }

/-- `Request.AbsPath`; Go dereferences `r.c.base` unconditionally here (a nil
base would panic), so the model reads it with a zero default. -/
def Request.AbsPath (r : Request) (segments : List String) : Request :=
  if r.err.isSome then r
  else
    let basePath := (r.c.base.getD {}).Path
    let p := goJoin [basePath, goJoin segments]
    let p :=
      if segments.length = 1 ∧ (basePath.length > 1 ∨ (segments.headD "").length > 1)
          ∧ (segments.headD "").endsWith "/" then p ++ "/"
      else p
    { r with pathPrefix := p }

def Request.RequestURI (env : Env) (r : Request) (uri : String) : Request :=
  if r.err.isSome then r
  else
    match env.urlParse uri with
    | .error e => { r with err := some e }
    | .ok locator =>
      let r := { r with pathPrefix := locator.Path }
      if locator.Query.length > 0 then
        { r with params := locator.Query.foldl (fun ps p => vassign ps p.1 p.2) r.params }
      else r

def Request.setParam (r : Request) (paramName value : String) : Request :=
  { r with params := vadd r.params paramName value }

def Request.Param (r : Request) (paramName s : String) : Request :=
  if r.err.isSome then r
  else r.setParam paramName s

/-- `Request.VersionedParams` serializes the object onto the shared agent
(`r.c.Client.Query(v)`); the model keeps the agent inside the request. -/
def Request.VersionedParams (r : Request) (v : String) : Request :=
  if r.err.isSome then r
  else { r with c := { r.c with Client := r.c.Client.Query v } }

def Request.Timeout (r : Request) (d : Int) : Request :=
  if r.err.isSome then r else { r with timeout := d }

/-- `Request.Body`; all SDK call sites pass pointers, whose reflect kind is
not `Struct`, so `isStruct` is false there and no Content-Type header is set. -/
def Request.Body (r : Request) (obj : String) (isStruct : Bool) : Request :=
  let r := if isStruct then r.SetHeader "Content-Type" [r.c.content.ContentType] else r
  { r with body := some obj }

def Request.URL (r : Request) : URLModel :=
  let p := r.pathPrefix
  let p := if r.resource.length != 0 then goJoin [p, goToLower r.resource] else p
  let p :=
    if r.resourceName.length != 0 ∨ r.subpath.length != 0 ∨ r.subresource.length != 0 then
      goJoin [p, r.resourceName, r.subresource, r.subpath]
    else p
  let finalURL := r.c.base.getD {}
  let finalURL := { finalURL with Path := p }
  let query := copyValues r.params
  let query := if r.timeout != 0 then vset query "timeout" (durationString r.timeout) else query
  { finalURL with Query := query }

def RESTClient.Verb (c : RESTClient) (verb : String) : Request := (NewRequest c).Verb verb

def RESTClient.Post (c : RESTClient) : Request := c.Verb "POST"

def RESTClient.Put (c : RESTClient) : Request := c.Verb "PUT"

def RESTClient.Get (c : RESTClient) : Request := c.Verb "GET"

def RESTClient.Delete (c : RESTClient) : Request := c.Verb "DELETE"

def RESTClient.APIVersion (c : RESTClient) : GroupVersion := c.content.GroupVersion

def NewRESTClient (baseURL : URLModel) (versionedAPIPath : String)
    (config : ClientContentConfig) (client : SuperAgent) : RESTClient :=
  let config :=
    if config.ContentType.length = 0 then { config with ContentType := "application/json" }
    else config
  let base :=
    if !baseURL.Path.endsWith "/" then { baseURL with Path := baseURL.Path ++ "/" }
    else baseURL
  let base := { base with Query := [], Fragment := "" }
  { base := some base, group := config.GroupVersion.Group,
    versionedAPIPath := versionedAPIPath, content := config, Client := client }

def rootCertPool (caData : List Nat) : Option (List Nat) :=
  if caData.length = 0 then none else some caData

def dataFromSliceOrFile (env : Env) (data : List Nat) (file : String) : Except String (List Nat) :=
  if data.length > 0 then base64Decode (String.mk (data.map Char.ofNat))
  else if file.length > 0 then
    match env.readFile file with
    | .error e => .error e
    | .ok fileData => .ok fileData
  else .ok []

def LoadTLSFiles (env : Env) (c : Config) : Except String Config :=
  match dataFromSliceOrFile env c.tlsClientConfig.CAData c.tlsClientConfig.CAFile with
  | .error e => .error e
  | .ok ca =>
    match dataFromSliceOrFile env c.tlsClientConfig.CertData c.tlsClientConfig.CertFile with
    | .error e => .error e
    | .ok cert =>
      match dataFromSliceOrFile env c.tlsClientConfig.KeyData c.tlsClientConfig.KeyFile with
      | .error e => .error e
      | .ok key =>
        .ok { c with tlsClientConfig :=
          { c.tlsClientConfig with CAData := ca, CertData := cert, KeyData := key } }

def caWithInsecureMsg : String :=
  "specifying a root certificates file with the insecure flag is not allowed"

def TLSConfigFor (env : Env) (c : Config) : Except String (Option TLSCfg) :=
  if !(c.HasCA || c.HasCertAuth || c.tlsClientConfig.Insecure
      || c.tlsClientConfig.ServerName.length != 0) then .ok none
  else if c.HasCA && c.tlsClientConfig.Insecure then .error caWithInsecureMsg
  else
    match LoadTLSFiles env c with
    | .error e => .error e
    | .ok c' =>
      let tlsConfig : TLSCfg :=
        { MinVersion := VersionTLS12,
          InsecureSkipVerify := c'.tlsClientConfig.Insecure,
          ServerName := c'.tlsClientConfig.ServerName,
          NextProtos := c'.tlsClientConfig.NextProtos }
      let tlsConfig :=
        if c'.HasCA then { tlsConfig with RootCAs := rootCertPool c'.tlsClientConfig.CAData }
        else tlsConfig
      if c'.HasCertAuth then
        match env.x509KeyPair c'.tlsClientConfig.CertData c'.tlsClientConfig.KeyData with
        | .error e => .error e
        | .ok _ => .ok (some { tlsConfig with GetClientCertificate := true })
      else .ok (some tlsConfig)

def DefaultServerURL (env : Env) (host apiPath : String) (groupVersion : GroupVersion)
    (defaultTLS : Bool) : Except String (URLModel × String) :=
  let versionedAPIPath := goJoin ["/", apiPath, groupVersion.Version]
  let fallback :=
    let requestURL :=
      if defaultTLS then "https://" ++ groupVersion.Group ++ ".marmotedu.com:8443"
      else "http://" ++ groupVersion.Group ++ ".marmotedu.com:8080"
    match env.urlParse requestURL with
    | .error e => .error e
    | .ok hostURL =>
      if hostURL.Path != "" && hostURL.Path != "/" then
        .error ("host must be a URL or a host:port pair: " ++ host)
      else .ok (hostURL, versionedAPIPath)
  match env.urlParse host with
  | .error _ => fallback
  | .ok hostURL =>
    if hostURL.Scheme = "" ∨ hostURL.Host = "" then fallback
    else .ok (hostURL, versionedAPIPath)

def defaultServerURLFor (env : Env) (config : Config) : Except String (URLModel × String) :=
  let hasCA := config.tlsClientConfig.CAFile.length != 0 || config.tlsClientConfig.CAData.length != 0
  let hasCert := config.tlsClientConfig.CertFile.length != 0 || config.tlsClientConfig.CertData.length != 0
  let defaultTLS := hasCA || hasCert || config.tlsClientConfig.Insecure
  match config.contentConfig.GroupVersion with
  | some gv => DefaultServerURL env config.Host config.APIPath gv defaultTLS
  | none => DefaultServerURL env config.Host config.APIPath {} defaultTLS

def RESTClientFor (env : Env) (config : Config) : Except String RESTClient :=
  match config.contentConfig.GroupVersion with
  | none => .error "GroupVersion is required when initializing a RESTClient"
  | some gv =>
    if !config.contentConfig.Negotiator then
      .error "NegotiatedSerializer is required when initializing a RESTClient"
    else
      match defaultServerURLFor env config with
      | .error e => .error e
      | .ok (baseURL, versionedAPIPath) =>
        match TLSConfigFor env config with
        | .error e => .error e
        | .ok tlsConfig =>
          let client :=
            ((SuperAgent.New.TLSClientConfig tlsConfig).Timeout config.Timeout).Retry
              config.MaxRetries config.RetryInterval [StatusInternalServerError]
          let client := { client with DoNotClearSuperAgent := true }
          let clientContent : ClientContentConfig :=
            { Username := config.Username, Password := config.Password,
              SecretID := config.SecretID, SecretKey := config.SecretKey,
              BearerToken := config.BearerToken, BearerTokenFile := config.BearerTokenFile,
              tlsClientConfig := config.tlsClientConfig,
              AcceptContentTypes := config.contentConfig.AcceptContentTypes,
              ContentType := config.contentConfig.ContentType,
              GroupVersion := gv, Negotiator := config.contentConfig.Negotiator }
          .ok (NewRESTClient baseURL versionedAPIPath clientContent client)

def adjustCommit (c : String) : String :=
  if c.length = 0 then "unknown"
  else if c.length > 7 then String.mk (c.data.take 7)
  else c

def adjustVersion (v : String) : String :=
  if v.length = 0 then "unknown" else (goSplitN2 v "-").headD v

def adjustCommand (p : String) : String :=
  if p.length = 0 then "unknown" else goBase p

def buildUserAgent (command version os arch commit : String) : String :=
  command ++ "/" ++ version ++ " (" ++ os ++ "/" ++ arch ++ ") iam/" ++ commit

/-- `DefaultUserAgent`, with the process globals (`os.Args[0]`, the version
info and the platform strings) passed explicitly. -/
def DefaultUserAgent (argv0 gitVersion goos goarch gitCommit : String) : String :=
  buildUserAgent (adjustCommand argv0) (adjustVersion gitVersion) goos goarch (adjustCommit gitCommit)

/-- `CopyConfig`; it copies every field except `MaxRetries` and
`RetryInterval`, which stay at their zero values. -/
def CopyConfig (config : Config) : Config :=
  { Host := config.Host, APIPath := config.APIPath,
    contentConfig := config.contentConfig,
    Username := config.Username, Password := config.Password,
    SecretID := config.SecretID, SecretKey := config.SecretKey,
    BearerToken := config.BearerToken, BearerTokenFile := config.BearerTokenFile,
    tlsClientConfig :=
      { Insecure := config.tlsClientConfig.Insecure,
        ServerName := config.tlsClientConfig.ServerName,
        CertFile := config.tlsClientConfig.CertFile,
        KeyFile := config.tlsClientConfig.KeyFile,
        CAFile := config.tlsClientConfig.CAFile,
        CertData := config.tlsClientConfig.CertData,
        KeyData := config.tlsClientConfig.KeyData,
        CAData := config.tlsClientConfig.CAData,
        NextProtos := config.tlsClientConfig.NextProtos },
    UserAgent := config.UserAgent, Timeout := config.Timeout }

def quoteStr (s : String) : String := "\"" ++ s ++ "\""

def reprBytes (bs : List Nat) : String :=
  "[]byte\x7b" ++ String.intercalate ", " (bs.map toString) ++ "\x7d"

def reprStrs (l : List String) : String :=
  "[]string\x7b" ++ String.intercalate ", " (l.map quoteStr) ++ "\x7d"

def reprBool (b : Bool) : String := if b then "true" else "false"

/-- The sanitized copy `TLSClientConfig.String` formats. -/
def sanitizedTLSClientConfig (c : TLSClientConfig) : TLSClientConfig :=
  let c := if c.CertData.length != 0 then { c with CertData := utf8Bytes "--- TRUNCATED ---" } else c
  if c.KeyData.length != 0 then { c with KeyData := utf8Bytes "--- REDACTED ---" } else c

/-- `TLSClientConfig.String`: the `%#v` rendering of the sanitized copy. -/
def TLSClientConfig.string (c : TLSClientConfig) : String :=
  let cc := sanitizedTLSClientConfig c
  "rest.sanitizedTLSClientConfig\x7bInsecure:" ++ reprBool cc.Insecure ++
  ", ServerName:" ++ quoteStr cc.ServerName ++ ", CertFile:" ++ quoteStr cc.CertFile ++
  ", KeyFile:" ++ quoteStr cc.KeyFile ++ ", CAFile:" ++ quoteStr cc.CAFile ++
  ", CertData:" ++ reprBytes cc.CertData ++ ", KeyData:" ++ reprBytes cc.KeyData ++
  ", CAData:" ++ reprBytes cc.CAData ++ ", NextProtos:" ++ reprStrs cc.NextProtos ++ "\x7d"

/-- The sanitized copy `Config.String` formats. -/
def sanitizedConfig (c : Config) : Config :=
  let cc := CopyConfig c
  let cc := if cc.Password != "" then { cc with Password := "--- REDACTED ---" } else cc
  let cc := if cc.BearerToken != "" then { cc with BearerToken := "--- REDACTED ---" } else cc
  if cc.SecretKey != "" then { cc with SecretKey := "--- REDACTED ---" } else cc

def contentConfigString (c : ContentConfig) : String :=
  "rest.ContentConfig\x7bServiceName:" ++ quoteStr c.ServiceName ++
  ", AcceptContentTypes:" ++ quoteStr c.AcceptContentTypes ++
  ", ContentType:" ++ quoteStr c.ContentType ++
  ", GroupVersion:" ++ (match c.GroupVersion with
    | none => "(*scheme.GroupVersion)(nil)"
    | some gv =>
      "&scheme.GroupVersion\x7bGroup:" ++ quoteStr gv.Group ++
        ", Version:" ++ quoteStr gv.Version ++ "\x7d") ++
  ", Negotiator:" ++ reprBool c.Negotiator ++ "\x7d"

/-- `Config.String`: the `%#v` rendering of the sanitized copy (`fmt` uses
`TLSClientConfig.GoString` for the embedded TLS field). -/
def Config.string (c : Config) : String :=
  let cc := sanitizedConfig c
  "&rest.sanitizedConfig\x7bHost:" ++ quoteStr cc.Host ++ ", APIPath:" ++ quoteStr cc.APIPath ++
  ", ContentConfig:" ++ contentConfigString cc.contentConfig ++
  ", Username:" ++ quoteStr cc.Username ++ ", Password:" ++ quoteStr cc.Password ++
  ", SecretID:" ++ quoteStr cc.SecretID ++ ", SecretKey:" ++ quoteStr cc.SecretKey ++
  ", BearerToken:" ++ quoteStr cc.BearerToken ++
  ", BearerTokenFile:" ++ quoteStr cc.BearerTokenFile ++
  ", TLSClientConfig:" ++ TLSClientConfig.string cc.tlsClientConfig ++
  ", UserAgent:" ++ quoteStr cc.UserAgent ++ ", Timeout:" ++ toString cc.Timeout ++
  ", MaxRetries:" ++ toString cc.MaxRetries ++
  ", RetryInterval:" ++ toString cc.RetryInterval ++ "\x7d"

/-- `Config.GoString` delegates to `Config.String`. -/
def Config.goString (c : Config) : String := Config.string c

end rest

/-! ## Package `clientcmd`: config loading and validation -/

namespace clientcmd

structure Server where
  LocationOfOrigin : String := ""
  Timeout : Int := 0
  MaxRetries : Int := 0
  RetryInterval : Int := 0
  Address : String := ""
  TLSServerName : String := ""
  InsecureSkipTLSVerify : Bool := false
  CertificateAuthority : String := ""
  CertificateAuthorityData : String := ""
deriving DecidableEq, Repr

structure AuthInfo where
  LocationOfOrigin : String := ""
  ClientCertificate : String := ""
  ClientCertificateData : String := ""
  ClientKey : String := ""
  ClientKeyData : String := ""
  Token : String := ""
  Username : String := ""
  Password : String := ""
  SecretID : String := ""
  SecretKey : String := ""
deriving DecidableEq, Repr

/-- `clientcmd.Config`; `AuthInfo` and `Server` are pointers in Go, so they
may be nil. -/
structure Config where
  APIVersion : String := ""
  AuthInfo : Option AuthInfo := none
  Server : Option Server := none
deriving DecidableEq, Repr

/-- `NewConfig`: a fresh config with non-nil empty `Server` and `AuthInfo`. -/
def NewConfig : Config := { Server := some {}, AuthInfo := some {} }

/-- The external effects of package `clientcmd`: file reads, YAML decoding
(`yaml.Unmarshal(data, config)` refines the given config in place and may
fail) and `os.Open` probes. -/
structure Env where
  readFile : String → Except String (List Nat)
  yamlUnmarshal : List Nat → Config → Except String Config
  canOpen : String → Bool

/-- `Load`: an empty byte slice yields the default config; otherwise the
result of YAML unmarshalling into a fresh default config. -/
def Load (env : Env) (data : List Nat) : Except String Config :=
  if data = [] then .ok NewConfig
  else env.yamlUnmarshal data NewConfig

/-- `LoadFromFile`.  Go assigns `config.AuthInfo.LocationOfOrigin` and
`config.Server.LocationOfOrigin` before its (dead) nil checks, so a nil
`AuthInfo` or `Server` coming out of `Load` panics there: the model returns
`none` for that panic and `some` for a normal return. -/
def LoadFromFile (env : Env) (filename : String) : Option (Except String Config) :=
  match env.readFile filename with
  | .error e => some (.error e)
  | .ok iamconfigBytes =>
    match Load env iamconfigBytes with
    | .error e => some (.error e)
    | .ok config =>
      match config.AuthInfo, config.Server with
      | some ai, some srv =>
        some (.ok { config with
          AuthInfo := some { ai with LocationOfOrigin := filename },
          Server := some { srv with LocationOfOrigin := filename } })
      | _, _ => none

/-- The validation errors `validateAuthInfo` can produce, by kind. -/
inductive VErr where
  | tooManyMethods (methods : List String)
  | certBothSpecified
  | keyBothSpecified
  | keyMissing
  | unreadableCert (f : String)
  | unreadableKey (f : String)
deriving DecidableEq, Repr

/-- The `methods` list `validateAuthInfo` builds: which credential categories
are populated, in source order. -/
def methodsOf (authInfo : AuthInfo) : List String :=
  (if authInfo.Token.length != 0 then ["token"] else []) ++
  (if authInfo.Username.length != 0 || authInfo.Password.length != 0 then ["basicAuth"] else []) ++
  (if authInfo.SecretID.length != 0 || authInfo.SecretKey.length != 0 then ["secretAuth"] else [])

/-- `validateAuthInfo` (`usingAuthPath` is always false in the source). -/
def validateAuthInfo (env : Env) (authInfo : AuthInfo) : List VErr :=
  let usingAuthPath := false
  let methods := methodsOf authInfo
  let validationErrors :=
    if methods.length > 1 ∧ ¬usingAuthPath then [VErr.tooManyMethods methods] else []
  if authInfo.ClientCertificate.length = 0 ∨ authInfo.ClientCertificateData.length = 0 then
    validationErrors
  else
    validationErrors ++
    (if authInfo.ClientCertificate.length != 0 && authInfo.ClientCertificateData.length != 0 then
      [VErr.certBothSpecified] else []) ++
    (if authInfo.ClientKey.length != 0 && authInfo.ClientKeyData.length != 0 then
      [VErr.keyBothSpecified] else []) ++
    (if authInfo.ClientKey.length = 0 ∧ authInfo.ClientKeyData.length = 0 then
      [VErr.keyMissing] else []) ++
    (if authInfo.ClientCertificate.length != 0 && !env.canOpen authInfo.ClientCertificate then
      [VErr.unreadableCert authInfo.ClientCertificate] else []) ++
    (if authInfo.ClientKey.length != 0 && !env.canOpen authInfo.ClientKey then
      [VErr.unreadableKey authInfo.ClientKey] else [])

end clientcmd

/-! ## Typed resource clients (`marmotedu/service/iam`)

Each operation is embedded as the request its builder chain constructs plus
the kind of object `Do(ctx).Into(result)` decodes the response into
(`.statusOnly` when the chain ends in `.Error()` and decodes nothing). -/

inductive ResultKind where
  | user
  | userList
  | secret
  | secretList
  | policy
  | policyList
  | authzResponse
  | statusOnly
deriving DecidableEq, Repr

/-- `metav1.ListOptions`, restricted to the field the operations read. -/
structure ListOptions where
  TimeoutSeconds : Option Int := none
deriving DecidableEq, Repr

def ListOptions.repr (o : ListOptions) : String :=
  "ListOptions " ++ (match o.TimeoutSeconds with
    | none => "nil"
    | some s => toString s)

/-- The `time.Duration(*opts.TimeoutSeconds) * time.Second` computation shared
by the List and DeleteCollection operations. -/
def listTimeout (o : ListOptions) : Int :=
  match o.TimeoutSeconds with
  | some s => s * 1000000000
  | none => 0

namespace apiv1

open rest

/-- `users.Get`. -/
def usersGet (c : RESTClient) (name opts : String) : Request × ResultKind :=
  ((((c.Get).Resource "users").Name name).VersionedParams opts, .user)

/-- `users.List`. -/
def usersList (c : RESTClient) (opts : ListOptions) : Request × ResultKind :=
  ((((c.Get).Resource "users").VersionedParams opts.repr).Timeout (listTimeout opts), .userList)

/-- `users.Create`. -/
def usersCreate (c : RESTClient) (user opts : String) : Request × ResultKind :=
  ((((c.Post).Resource "users").VersionedParams opts).Body user false, .user)

/-- `users.Update`. -/
def usersUpdate (c : RESTClient) (user userName opts : String) : Request × ResultKind :=
  (((((c.Put).Resource "users").Name userName).VersionedParams opts).Body user false, .user)

/-- `users.Delete`. -/
def usersDelete (c : RESTClient) (name opts : String) : Request × ResultKind :=
  ((((c.Delete).Resource "users").Name name).Body opts false, .statusOnly)

/-- `users.DeleteCollection`. -/
def usersDeleteCollection (c : RESTClient) (opts : String) (listOpts : ListOptions) :
    Request × ResultKind :=
  (((((c.Delete).Resource "users").VersionedParams listOpts.repr).Timeout
      (listTimeout listOpts)).Body opts false, .statusOnly)

/-- `secrets.Get`. -/
def secretsGet (c : RESTClient) (name opts : String) : Request × ResultKind :=
  ((((c.Get).Resource "secrets").Name name).VersionedParams opts, .secret)

/-- `secrets.List`. -/
def secretsList (c : RESTClient) (opts : ListOptions) : Request × ResultKind :=
  ((((c.Get).Resource "secrets").VersionedParams opts.repr).Timeout (listTimeout opts), .secretList)

/-- `secrets.Create`. -/
def secretsCreate (c : RESTClient) (secret opts : String) : Request × ResultKind :=
  ((((c.Post).Resource "secrets").VersionedParams opts).Body secret false, .secret)

/-- `secrets.Update`. -/
def secretsUpdate (c : RESTClient) (secret secretName opts : String) : Request × ResultKind :=
  (((((c.Put).Resource "secrets").Name secretName).VersionedParams opts).Body secret false, .secret)

/-- `secrets.Delete`. -/
def secretsDelete (c : RESTClient) (name opts : String) : Request × ResultKind :=
  ((((c.Delete).Resource "secrets").Name name).Body opts false, .statusOnly)

/-- `secrets.DeleteCollection`. -/
def secretsDeleteCollection (c : RESTClient) (opts : String) (listOpts : ListOptions) :
    Request × ResultKind :=
  (((((c.Delete).Resource "secrets").VersionedParams listOpts.repr).Timeout
      (listTimeout listOpts)).Body opts false, .statusOnly)

/-- `policies.Get`. -/
def policiesGet (c : RESTClient) (name opts : String) : Request × ResultKind :=
  ((((c.Get).Resource "policies").Name name).VersionedParams opts, .policy)

/-- `policies.List`. -/
def policiesList (c : RESTClient) (opts : ListOptions) : Request × ResultKind :=
  ((((c.Get).Resource "policies").VersionedParams opts.repr).Timeout (listTimeout opts), .policyList)

/-- `policies.Create`. -/
def policiesCreate (c : RESTClient) (policy opts : String) : Request × ResultKind :=
  ((((c.Post).Resource "policies").VersionedParams opts).Body policy false, .policy)

/-- `policies.Update`. -/
def policiesUpdate (c : RESTClient) (policy policyName opts : String) : Request × ResultKind :=
  (((((c.Put).Resource "policies").Name policyName).VersionedParams opts).Body policy false, .policy)

/-- `policies.Delete`. -/
def policiesDelete (c : RESTClient) (name opts : String) : Request × ResultKind :=
  ((((c.Delete).Resource "policies").Name name).Body opts false, .statusOnly)

/-- `policies.DeleteCollection`. -/
def policiesDeleteCollection (c : RESTClient) (opts : String) (listOpts : ListOptions) :
    Request × ResultKind :=
  (((((c.Delete).Resource "policies").VersionedParams listOpts.repr).Timeout
      (listTimeout listOpts)).Body opts false, .statusOnly)

end apiv1

namespace authzv1

open rest

/-- `authz.Authorize`. -/
def authzAuthorize (c : RESTClient) (request opts : String) : Request × ResultKind :=
  ((((c.Post).Resource "authz").VersionedParams opts).Body request false, .authzResponse)

end authzv1

/-! ## Helper lemmas -/

theorem string_length_eq_zero_iff (s : String) : s.length = 0 ↔ s = "" := by
  cases s with
  | mk data =>
    cases data with
    | nil => simp [String.length]
    | cons a l =>
      constructor
      · intro h
        simp [String.length] at h
      · intro h
        have hd : (String.mk (a :: l)).data = ("" : String).data := by rw [h]
        simp at hd

theorem vget_vadd_self (q : Values) (k v : String) :
    vget (vadd q k v) k = vget q k ++ [v] := by
  induction q with
  | nil => simp [vadd, vget]
  | cons p rest ih =>
    obtain ⟨k', l⟩ := p
    by_cases hk : k' = k <;> simp [vadd, vget, hk, ih]

theorem vget_vadd_ne (q : Values) (k v k2 : String) (h : k2 ≠ k) :
    vget (vadd q k v) k2 = vget q k2 := by
  induction q with
  | nil => simp [vadd, vget, h.symm]
  | cons p rest ih =>
    obtain ⟨k', l⟩ := p
    by_cases hk : k' = k <;> by_cases hk2 : k' = k2 <;>
      simp_all [vadd, vget]

theorem vget_vset_self (q : Values) (k v : String) :
    vget (vset q k v) k = [v] := by
  induction q with
  | nil => simp [vset, vget]
  | cons p rest ih =>
    obtain ⟨k', l⟩ := p
    by_cases hk : k' = k <;> simp [vset, vget, hk, ih]

theorem vget_vset_ne (q : Values) (k v k2 : String) (h : k2 ≠ k) :
    vget (vset q k v) k2 = vget q k2 := by
  induction q with
  | nil => simp [vset, vget, h.symm]
  | cons p rest ih =>
    obtain ⟨k', l⟩ := p
    by_cases hk : k' = k <;> by_cases hk2 : k' = k2 <;>
      simp_all [vset, vget]

theorem vget_foldl_vadd_self (l : List String) (q : Values) (k : String) :
    vget (l.foldl (fun q' v => vadd q' k v) q) k = vget q k ++ l := by
  induction l generalizing q with
  | nil => simp
  | cons v rest ih => simp [ih, vget_vadd_self]

theorem vget_foldl_vadd_ne (l : List String) (q : Values) (k k2 : String) (h : k2 ≠ k) :
    vget (l.foldl (fun q' v => vadd q' k v) q) k2 = vget q k2 := by
  induction l generalizing q with
  | nil => simp
  | cons v rest ih => simp [ih, vget_vadd_ne _ _ _ _ h]

theorem vget_copyValues_aux (vs : Values) (q : Values) (k : String) :
    vget (vs.foldl (fun q p => p.2.foldl (fun q' v => vadd q' p.1 v) q) q) k
      = vget q k ++ allVals vs k := by
  induction vs generalizing q with
  | nil => simp [allVals]
  | cons p rest ih =>
    obtain ⟨k1, l⟩ := p
    by_cases hk : k1 = k
    · subst hk
      simp [ih, vget_foldl_vadd_self, allVals]
    · simp [ih, vget_foldl_vadd_ne _ _ _ _ (fun he => hk he.symm), allVals, hk]

theorem vget_copyValues (vs : Values) (k : String) :
    vget (copyValues vs) k = allVals vs k := by
  simpa [copyValues] using vget_copyValues_aux vs [] k

theorem mem_allVals_of_mem_vget (vs : Values) (k v : String) (h : v ∈ vget vs k) :
    v ∈ allVals vs k := by
  induction vs with
  | nil => simp [vget] at h
  | cons p rest ih =>
    obtain ⟨k1, l⟩ := p
    by_cases hk : k1 = k
    · subst hk
      simp [vget] at h
      simp [allVals, h]
    · simp [vget, hk] at h
      simpa [allVals, hk] using ih h

theorem splitFirstAux_single (c : Char) (l : List Char) :
    splitFirstAux [c] l =
      if c ∈ l then
        some (l.takeWhile (fun x => x != c), (l.dropWhile (fun x => x != c)).tail)
      else none := by
  induction l with
  | nil => simp [splitFirstAux]
  | cons x rest ih =>
    by_cases hx : c = x
    · subst hx
      simp [splitFirstAux, List.isPrefixOf, List.takeWhile_cons, List.dropWhile_cons]
    · have hb : (c == x) = false := by simp [hx]
      have hb2 : (x != c) = true := by simp [bne]; exact fun he => hx he.symm
      by_cases hmem : c ∈ rest
      · simp [splitFirstAux, List.isPrefixOf, hb, ih, hmem, hx,
          List.takeWhile_cons, List.dropWhile_cons, hb2]
      · simp [splitFirstAux, List.isPrefixOf, hb, ih, hmem, hx]

theorem goContains_single (s : String) (c : Char) (hs : String.mk [c] ≠ "") :
    goContains s (String.mk [c]) = true ↔ c ∈ s.data := by
  simp only [goContains, hs, if_false, splitFirstAux_single]
  by_cases hmem : c ∈ s.data <;> simp [hmem]

theorem takeWhile_ne_of_not_mem (c : Char) (l : List Char) (h : c ∉ l) :
    l.takeWhile (fun x => x != c) = l := by
  induction l with
  | nil => rfl
  | cons x rest ih =>
    simp only [List.mem_cons, not_or] at h
    have hb : (x != c) = true := by simp [bne]; exact fun he => h.1 he.symm
    simp [List.takeWhile_cons, hb, ih h.2]

namespace rest

@[simp] theorem setHeader_err (r : Request) (k : String) (vs : List String) :
    (r.SetHeader k vs).err = r.err := rfl

@[simp] theorem setHeader_verb (r : Request) (k : String) (vs : List String) :
    (r.SetHeader k vs).verb = r.verb := rfl

@[simp] theorem setHeader_resource (r : Request) (k : String) (vs : List String) :
    (r.SetHeader k vs).resource = r.resource := rfl

@[simp] theorem setHeader_resourceName (r : Request) (k : String) (vs : List String) :
    (r.SetHeader k vs).resourceName = r.resourceName := rfl

@[simp] theorem verb_verb (r : Request) (v : String) : (r.Verb v).verb = v := rfl

@[simp] theorem verb_err (r : Request) (v : String) : (r.Verb v).err = r.err := rfl

@[simp] theorem verb_resource (r : Request) (v : String) : (r.Verb v).resource = r.resource := rfl

@[simp] theorem verb_resourceName (r : Request) (v : String) :
    (r.Verb v).resourceName = r.resourceName := rfl

@[simp] theorem name_verb (r : Request) (n : String) : (r.Name n).verb = r.verb := by
  unfold Request.Name
  split_ifs <;> rfl

@[simp] theorem name_resource (r : Request) (n : String) : (r.Name n).resource = r.resource := by
  unfold Request.Name
  split_ifs <;> rfl

@[simp] theorem resource_verb (r : Request) (s : String) : (r.Resource s).verb = r.verb := by
  unfold Request.Resource
  split_ifs <;> rfl

@[simp] theorem versionedParams_verb (r : Request) (v : String) :
    (r.VersionedParams v).verb = r.verb := by
  unfold Request.VersionedParams
  split_ifs <;> rfl

@[simp] theorem versionedParams_resource (r : Request) (v : String) :
    (r.VersionedParams v).resource = r.resource := by
  unfold Request.VersionedParams
  split_ifs <;> rfl

@[simp] theorem versionedParams_resourceName (r : Request) (v : String) :
    (r.VersionedParams v).resourceName = r.resourceName := by
  unfold Request.VersionedParams
  split_ifs <;> rfl

@[simp] theorem versionedParams_err (r : Request) (v : String) :
    (r.VersionedParams v).err = r.err := by
  unfold Request.VersionedParams
  split_ifs <;> rfl

@[simp] theorem timeout_verb (r : Request) (d : Int) : (r.Timeout d).verb = r.verb := by
  unfold Request.Timeout
  split_ifs <;> rfl

@[simp] theorem timeout_resource (r : Request) (d : Int) : (r.Timeout d).resource = r.resource := by
  unfold Request.Timeout
  split_ifs <;> rfl

@[simp] theorem timeout_err (r : Request) (d : Int) : (r.Timeout d).err = r.err := by
  unfold Request.Timeout
  split_ifs <;> rfl

@[simp] theorem body_verb (r : Request) (obj : String) (st : Bool) :
    (r.Body obj st).verb = r.verb := by
  unfold Request.Body
  split_ifs <;> rfl

@[simp] theorem body_resource (r : Request) (obj : String) (st : Bool) :
    (r.Body obj st).resource = r.resource := by
  unfold Request.Body
  split_ifs <;> rfl

@[simp] theorem body_err (r : Request) (obj : String) (st : Bool) :
    (r.Body obj st).err = r.err := by
  unfold Request.Body
  split_ifs <;> rfl

theorem newRequest_resource (c : RESTClient) : (NewRequest c).resource = "" := by
  unfold NewRequest
  split_ifs <;> simp

theorem newRequest_resourceName (c : RESTClient) : (NewRequest c).resourceName = "" := by
  unfold NewRequest
  split_ifs <;> simp

theorem newRequest_err_of_le (c : RESTClient) (h : authMethodCount c.content ≤ 1) :
    (NewRequest c).err = none := by
  have hng : ¬ authMethodCount c.content > 1 := by omega
  unfold NewRequest
  split_ifs <;> simp_all

theorem resource_set_ok (r : Request) (s : String) (he : r.err = none) (hr : r.resource = "")
    (hv : IsValidPathSegmentName s = []) :
    r.Resource s = { r with resource := s } := by
  unfold Request.Resource
  simp [he, hr, hv]

end rest

theorem vget_vdel_self (q : Values) (k : String) : vget (vdel q k) k = [] := by
  induction q with
  | nil => rfl
  | cons p rest ih =>
    obtain ⟨k', l⟩ := p
    by_cases hk : k' = k <;> simp_all [vdel, vget]

theorem vget_vdel_ne (q : Values) (k k2 : String) (h : k2 ≠ k) :
    vget (vdel q k) k2 = vget q k2 := by
  induction q with
  | nil => rfl
  | cons p rest ih =>
    obtain ⟨k', l⟩ := p
    by_cases hk : k' = k <;> by_cases hk2 : k' = k2 <;> simp_all [vdel, vget]

theorem vget_setHeader_self (r : rest.Request) (k v : String) :
    vget (r.SetHeader k [v]).headers k = [v] := by
  simp [rest.Request.SetHeader, vget_vadd_self, vget_vdel_self]

theorem vget_setHeader_ne (r : rest.Request) (k : String) (vs : List String) (k2 : String)
    (h : k2 ≠ k) : vget (r.SetHeader k vs).headers k2 = vget r.headers k2 := by
  simp [rest.Request.SetHeader, vget_foldl_vadd_ne _ _ _ _ h, vget_vdel_ne _ _ _ h]

@[simp] theorem vget_accept_authorization (r : rest.Request) (vs : List String) :
    vget (r.SetHeader "Accept" vs).headers "Authorization" = vget r.headers "Authorization" :=
  vget_setHeader_ne r "Accept" vs "Authorization" (by decide)

/-- C1: NewRequest selects exactly one of the three auth-header strategies by
which credential fields are populated: with more than one category populated
the request carries a recorded error and no Authorization header; with at most
one, no error is recorded and the Authorization header is `Bearer
<BearerToken>` for token auth, `Bearer <signed token>` for secretID/secretKey
auth, `Basic base64(user:pass)` for basic auth; and validateAuthInfo reports
its too-many-methods error exactly when more than one method is populated. -/
theorem C1_auth_strategy (c : rest.RESTClient) (ai : clientcmd.AuthInfo)
    (cenv : clientcmd.Env) :
    (rest.authMethodCount c.content > 1 →
      (rest.NewRequest c).err = some rest.authConflictMsg ∧
        vget (rest.NewRequest c).headers "Authorization" = []) ∧
    (rest.authMethodCount c.content ≤ 1 → (rest.NewRequest c).err = none) ∧
    (c.content.HasTokenAuth = true → rest.authMethodCount c.content ≤ 1 →
      vget (rest.NewRequest c).headers "Authorization" =
        ["Bearer " ++ c.content.BearerToken]) ∧
    (c.content.HasTokenAuth = false → c.content.HasKeyAuth = true →
      rest.authMethodCount c.content ≤ 1 →
      vget (rest.NewRequest c).headers "Authorization" =
        ["Bearer " ++ rest.authSign c.content.SecretID c.content.SecretKey "marmotedu-sdk-go"
          (c.group ++ ".marmotedu.com")]) ∧
    (c.content.HasTokenAuth = false → c.content.HasKeyAuth = false →
      c.content.HasBasicAuth = true →
      vget (rest.NewRequest c).headers "Authorization" =
        ["Basic " ++ rest.basicAuth c.content.Username c.content.Password]) ∧
    ((clientcmd.VErr.tooManyMethods (clientcmd.methodsOf ai) ∈
        clientcmd.validateAuthInfo cenv ai) ↔ 1 < (clientcmd.methodsOf ai).length) ∧
    ((ai.ClientCertificate = "" ∨ ai.ClientCertificateData = "") →
      (clientcmd.validateAuthInfo cenv ai ≠ [] ↔ 1 < (clientcmd.methodsOf ai).length)) := by
  refine ⟨?_, fun h => rest.newRequest_err_of_le c h, ?_, ?_, ?_, ?_, ?_⟩
  · intro h
    unfold rest.NewRequest
    split_ifs
    all_goals simp_all [vget]
  · intro hT hle
    have hng : ¬ rest.authMethodCount c.content > 1 := by omega
    unfold rest.NewRequest
    split_ifs <;> simp_all [vget_setHeader_self]
  · intro hT hK hle
    have hng : ¬ rest.authMethodCount c.content > 1 := by omega
    unfold rest.NewRequest
    split_ifs <;> simp_all [vget_setHeader_self]
  · intro hT hK hB
    have hng : ¬ rest.authMethodCount c.content > 1 := by
      simp [rest.authMethodCount, hT, hK, hB, List.filter]
    unfold rest.NewRequest
    split_ifs <;> simp_all [vget_setHeader_self]
  · unfold clientcmd.validateAuthInfo
    split_ifs <;> simp_all
  · intro hcert
    have hg : ai.ClientCertificate.length = 0 ∨ ai.ClientCertificateData.length = 0 := by
      rcases hcert with hc | hc
      · exact Or.inl (by simp [hc, string_length_eq_zero_iff])
      · exact Or.inr (by simp [hc, string_length_eq_zero_iff])
    simp only [clientcmd.validateAuthInfo]
    rw [if_pos hg]
    split_ifs <;> simp_all

/-- C1 witness: a token-auth client gets `Bearer tok` with no error, and an
auth-info populating both token and basic auth draws the validator error. -/
theorem C1_auth_strategy_witness :
    (rest.NewRequest ({ content := { BearerToken := "tok" } } : rest.RESTClient)).err = none ∧
    vget (rest.NewRequest ({ content := { BearerToken := "tok" } } : rest.RESTClient)).headers
        "Authorization" = ["Bearer tok"] ∧
    (clientcmd.VErr.tooManyMethods ["token", "basicAuth"] ∈
      clientcmd.validateAuthInfo
        { readFile := fun _ => .error "e", yamlUnmarshal := fun _ cfg => .ok cfg,
          canOpen := fun _ => false }
        { Token := "t", Username := "u" }) := by
  obtain ⟨h1, h2, h3, h4, h5, h6, h7⟩ :=
    C1_auth_strategy ({ content := { BearerToken := "tok" } } : rest.RESTClient)
      { Token := "t", Username := "u" }
      { readFile := fun _ => .error "e", yamlUnmarshal := fun _ cfg => .ok cfg,
        canOpen := fun _ => false }
  refine ⟨h2 (by decide), ?_, ?_⟩
  · exact (h3 (by decide) (by decide)).trans (by decide)
  · have hm : clientcmd.methodsOf { Token := "t", Username := "u" } = ["token", "basicAuth"] :=
      rfl
    rw [← hm]
    exact h6.mpr (by decide)

/-- C2 (amended): the assembled URL's path is the path prefix joined with the
lowercased resource segment when a resource is set, further joined with the
name, subresource and subpath when any is non-empty; the query contains every
parameter added via Param/setParam under keys other than "timeout" (and under
"timeout" too when no non-zero timeout was set); when a non-zero timeout was
set, the query's "timeout" parameter is exactly the timeout duration's string
form, replacing any user-supplied "timeout" parameters. -/
theorem C2_url_assembly (r : rest.Request) (k v : String) :
    ((rest.Request.URL r).Path =
      (let p := r.pathPrefix
       let p2 := if r.resource ≠ "" then goJoin [p, goToLower r.resource] else p
       if r.resourceName ≠ "" ∨ r.subpath ≠ "" ∨ r.subresource ≠ "" then
         goJoin [p2, r.resourceName, r.subresource, r.subpath]
       else p2)) ∧
    (v ∈ vget r.params k → k ≠ "timeout" → v ∈ vget (rest.Request.URL r).Query k) ∧
    (v ∈ vget r.params k → r.timeout = 0 → v ∈ vget (rest.Request.URL r).Query k) ∧
    (r.timeout ≠ 0 → vget (rest.Request.URL r).Query "timeout" = [durationString r.timeout]) := by
  refine ⟨?_, ?_, ?_, ?_⟩
  · unfold rest.Request.URL
    by_cases h1 : r.resource = "" <;> by_cases h2 : r.resourceName = "" <;>
      by_cases h3 : r.subpath = "" <;> by_cases h4 : r.subresource = "" <;>
      simp_all [string_length_eq_zero_iff]
  · intro hv hk
    unfold rest.Request.URL
    by_cases ht : r.timeout = 0
    · simpa [ht, vget_copyValues] using mem_allVals_of_mem_vget _ _ _ hv
    · simpa [ht, vget_vset_ne _ _ _ _ hk, vget_copyValues] using
        mem_allVals_of_mem_vget _ _ _ hv
  · intro hv ht
    unfold rest.Request.URL
    simpa [ht, vget_copyValues] using mem_allVals_of_mem_vget _ _ _ hv
  · intro ht
    unfold rest.Request.URL
    simp [ht, vget_vset_self]

/-- C2 counterexample: the claim promises the query contains every parameter
added via Param, but a parameter added under the key "timeout" is replaced
when a non-zero timeout is set. -/
theorem C2_url_assembly_counterexample :
    "xyz" ∉ vget (rest.Request.URL
      (((rest.NewRequest ({ versionedAPIPath := "v1" } : rest.RESTClient)).Param
        "timeout" "xyz").Timeout 1)).Query "timeout" := by
  decide

/-- C2 witness: a concrete request keeps an ordinary parameter and reports a
set timeout as its duration string. -/
theorem C2_url_assembly_witness :
    "b" ∈ vget (rest.Request.URL
      (((rest.NewRequest ({ versionedAPIPath := "v1" } : rest.RESTClient)).Param
        "a" "b").Timeout 5000000000)).Query "a" ∧
    vget (rest.Request.URL
      (((rest.NewRequest ({ versionedAPIPath := "v1" } : rest.RESTClient)).Param
        "a" "b").Timeout 5000000000)).Query "timeout" = ["5s"] := by
  obtain ⟨h1, h2, h3, h4⟩ := C2_url_assembly
    (((rest.NewRequest ({ versionedAPIPath := "v1" } : rest.RESTClient)).Param
      "a" "b").Timeout 5000000000) "a" "b"
  exact ⟨h2 (by decide) (by decide), (h4 (by decide)).trans (by decide)⟩

theorem goContains_slash (s : String) : goContains s "/" = true ↔ '/' ∈ s.data :=
  goContains_single s '/' (by decide)

theorem goContains_percent (s : String) : goContains s "%" = true ↔ '%' ∈ s.data :=
  goContains_single s '%' (by decide)

/-- C4: IsValidPathSegmentName returns a non-empty message list exactly when
the name is "." or ".." or contains '/' or '%'; Request.Name on an error-free
request records an error exactly when the name is empty, already set, or fails
that validation, and a passing name is kept unchanged. -/
theorem C4_path_segment_validation (name : String) (r : rest.Request) (n : String) :
    (rest.IsValidPathSegmentName name ≠ [] ↔
      (name = "." ∨ name = ".." ∨ '/' ∈ name.data ∨ '%' ∈ name.data)) ∧
    (r.err = none →
      (((r.Name n).err ≠ none) ↔
        (n = "" ∨ r.resourceName ≠ "" ∨ rest.IsValidPathSegmentName n ≠ [])) ∧
      ((r.Name n).err = none → (r.Name n).resourceName = n)) := by
  constructor
  · have hs := goContains_slash name
    have hp := goContains_percent name
    by_cases h1 : name = "."
    · subst h1
      simp [rest.IsValidPathSegmentName, rest.NameMayNotBe, List.find?]
    · by_cases h2 : name = ".."
      · subst h2
        simp [rest.IsValidPathSegmentName, rest.NameMayNotBe, List.find?]
      · have hb1 : (name == ".") = false := beq_eq_false_iff_ne.mpr h1
        have hb2 : (name == "..") = false := beq_eq_false_iff_ne.mpr h2
        by_cases h3 : '/' ∈ name.data <;> by_cases h4 : '%' ∈ name.data <;>
          · simp only [rest.IsValidPathSegmentName, rest.NameMayNotBe,
              rest.NameMayNotContain, List.find?, hb1, hb2]
            simp_all [List.filterMap]
  · intro he
    constructor
    · by_cases h1 : n = "" <;> by_cases h2 : r.resourceName = "" <;>
        by_cases h3 : rest.IsValidPathSegmentName n = [] <;>
        simp_all [rest.Request.Name, string_length_eq_zero_iff]
    · intro hok
      unfold rest.Request.Name at hok ⊢
      split_ifs at hok ⊢ <;> simp_all

/-- C4 witness: "a%b" is rejected with a message, and a valid name is kept. -/
theorem C4_path_segment_validation_witness :
    (rest.IsValidPathSegmentName "a%b" ≠ []) ∧
    ((({ c := {} } : rest.Request).Name "colin").resourceName = "colin") := by
  obtain ⟨h1, h2⟩ := C4_path_segment_validation "a%b" ({ c := {} } : rest.Request) "colin"
  exact ⟨h1.mpr (by decide), (h2 rfl).2 (by decide)⟩

theorem afterVerbResource (c : rest.RESTClient) (h : rest.authMethodCount c.content ≤ 1)
    (vb s : String) (hv : rest.IsValidPathSegmentName s = []) :
    (((rest.NewRequest c).Verb vb).Resource s).verb = vb ∧
    (((rest.NewRequest c).Verb vb).Resource s).resource = s := by
  have he : ((rest.NewRequest c).Verb vb).err = none := by
    simp [rest.newRequest_err_of_le c h]
  have hr : ((rest.NewRequest c).Verb vb).resource = "" := by
    simp [rest.newRequest_resource c]
  rw [rest.resource_set_ok _ _ he hr hv]
  exact ⟨rfl, rfl⟩

/-- C3: the SDK's typed operations for the three resource kinds issue POST for
Create, GET for Get and List, PUT for Update, DELETE for Delete and
DeleteCollection, against the resource paths "users", "secrets" and
"policies"; Authorize issues a POST against "authz" and decodes into an authz
Response. -/
theorem C3_typed_operations (c : rest.RESTClient)
    (h : rest.authMethodCount c.content ≤ 1) :
    (∀ name opts, (apiv1.usersGet c name opts).1.verb = "GET" ∧
      (apiv1.usersGet c name opts).1.resource = "users" ∧
      (apiv1.usersGet c name opts).2 = ResultKind.user) ∧
    (∀ opts, (apiv1.usersList c opts).1.verb = "GET" ∧
      (apiv1.usersList c opts).1.resource = "users" ∧
      (apiv1.usersList c opts).2 = ResultKind.userList) ∧
    (∀ user opts, (apiv1.usersCreate c user opts).1.verb = "POST" ∧
      (apiv1.usersCreate c user opts).1.resource = "users" ∧
      (apiv1.usersCreate c user opts).2 = ResultKind.user) ∧
    (∀ user userName opts, (apiv1.usersUpdate c user userName opts).1.verb = "PUT" ∧
      (apiv1.usersUpdate c user userName opts).1.resource = "users" ∧
      (apiv1.usersUpdate c user userName opts).2 = ResultKind.user) ∧
    (∀ name opts, (apiv1.usersDelete c name opts).1.verb = "DELETE" ∧
      (apiv1.usersDelete c name opts).1.resource = "users" ∧
      (apiv1.usersDelete c name opts).2 = ResultKind.statusOnly) ∧
    (∀ opts listOpts, (apiv1.usersDeleteCollection c opts listOpts).1.verb = "DELETE" ∧
      (apiv1.usersDeleteCollection c opts listOpts).1.resource = "users" ∧
      (apiv1.usersDeleteCollection c opts listOpts).2 = ResultKind.statusOnly) ∧
    (∀ name opts, (apiv1.secretsGet c name opts).1.verb = "GET" ∧
      (apiv1.secretsGet c name opts).1.resource = "secrets" ∧
      (apiv1.secretsGet c name opts).2 = ResultKind.secret) ∧
    (∀ opts, (apiv1.secretsList c opts).1.verb = "GET" ∧
      (apiv1.secretsList c opts).1.resource = "secrets" ∧
      (apiv1.secretsList c opts).2 = ResultKind.secretList) ∧
    (∀ secret opts, (apiv1.secretsCreate c secret opts).1.verb = "POST" ∧
      (apiv1.secretsCreate c secret opts).1.resource = "secrets" ∧
      (apiv1.secretsCreate c secret opts).2 = ResultKind.secret) ∧
    (∀ secret secretName opts, (apiv1.secretsUpdate c secret secretName opts).1.verb = "PUT" ∧
      (apiv1.secretsUpdate c secret secretName opts).1.resource = "secrets" ∧
      (apiv1.secretsUpdate c secret secretName opts).2 = ResultKind.secret) ∧
    (∀ name opts, (apiv1.secretsDelete c name opts).1.verb = "DELETE" ∧
      (apiv1.secretsDelete c name opts).1.resource = "secrets" ∧
      (apiv1.secretsDelete c name opts).2 = ResultKind.statusOnly) ∧
    (∀ opts listOpts, (apiv1.secretsDeleteCollection c opts listOpts).1.verb = "DELETE" ∧
      (apiv1.secretsDeleteCollection c opts listOpts).1.resource = "secrets" ∧
      (apiv1.secretsDeleteCollection c opts listOpts).2 = ResultKind.statusOnly) ∧
    (∀ name opts, (apiv1.policiesGet c name opts).1.verb = "GET" ∧
      (apiv1.policiesGet c name opts).1.resource = "policies" ∧
      (apiv1.policiesGet c name opts).2 = ResultKind.policy) ∧
    (∀ opts, (apiv1.policiesList c opts).1.verb = "GET" ∧
      (apiv1.policiesList c opts).1.resource = "policies" ∧
      (apiv1.policiesList c opts).2 = ResultKind.policyList) ∧
    (∀ policy opts, (apiv1.policiesCreate c policy opts).1.verb = "POST" ∧
      (apiv1.policiesCreate c policy opts).1.resource = "policies" ∧
      (apiv1.policiesCreate c policy opts).2 = ResultKind.policy) ∧
    (∀ policy policyName opts, (apiv1.policiesUpdate c policy policyName opts).1.verb = "PUT" ∧
      (apiv1.policiesUpdate c policy policyName opts).1.resource = "policies" ∧
      (apiv1.policiesUpdate c policy policyName opts).2 = ResultKind.policy) ∧
    (∀ name opts, (apiv1.policiesDelete c name opts).1.verb = "DELETE" ∧
      (apiv1.policiesDelete c name opts).1.resource = "policies" ∧
      (apiv1.policiesDelete c name opts).2 = ResultKind.statusOnly) ∧
    (∀ opts listOpts, (apiv1.policiesDeleteCollection c opts listOpts).1.verb = "DELETE" ∧
      (apiv1.policiesDeleteCollection c opts listOpts).1.resource = "policies" ∧
      (apiv1.policiesDeleteCollection c opts listOpts).2 = ResultKind.statusOnly) ∧
    (∀ request opts, (authzv1.authzAuthorize c request opts).1.verb = "POST" ∧
      (authzv1.authzAuthorize c request opts).1.resource = "authz" ∧
      (authzv1.authzAuthorize c request opts).2 = ResultKind.authzResponse) := by
  have hu := afterVerbResource c h "GET" "users" (by decide)
  have hup := afterVerbResource c h "POST" "users" (by decide)
  have huu := afterVerbResource c h "PUT" "users" (by decide)
  have hud := afterVerbResource c h "DELETE" "users" (by decide)
  have hsg := afterVerbResource c h "GET" "secrets" (by decide)
  have hsp := afterVerbResource c h "POST" "secrets" (by decide)
  have hsu := afterVerbResource c h "PUT" "secrets" (by decide)
  have hsd := afterVerbResource c h "DELETE" "secrets" (by decide)
  have hpg := afterVerbResource c h "GET" "policies" (by decide)
  have hpp := afterVerbResource c h "POST" "policies" (by decide)
  have hpu := afterVerbResource c h "PUT" "policies" (by decide)
  have hpd := afterVerbResource c h "DELETE" "policies" (by decide)
  have haz := afterVerbResource c h "POST" "authz" (by decide)
  refine ⟨fun name opts => ⟨?_, ?_, rfl⟩, fun opts => ⟨?_, ?_, rfl⟩,
    fun user opts => ⟨?_, ?_, rfl⟩, fun user userName opts => ⟨?_, ?_, rfl⟩,
    fun name opts => ⟨?_, ?_, rfl⟩, fun opts listOpts => ⟨?_, ?_, rfl⟩,
    fun name opts => ⟨?_, ?_, rfl⟩, fun opts => ⟨?_, ?_, rfl⟩,
    fun secret opts => ⟨?_, ?_, rfl⟩, fun secret secretName opts => ⟨?_, ?_, rfl⟩,
    fun name opts => ⟨?_, ?_, rfl⟩, fun opts listOpts => ⟨?_, ?_, rfl⟩,
    fun name opts => ⟨?_, ?_, rfl⟩, fun opts => ⟨?_, ?_, rfl⟩,
    fun policy opts => ⟨?_, ?_, rfl⟩, fun policy policyName opts => ⟨?_, ?_, rfl⟩,
    fun name opts => ⟨?_, ?_, rfl⟩, fun opts listOpts => ⟨?_, ?_, rfl⟩,
    fun request opts => ⟨?_, ?_, rfl⟩⟩ <;>
  simp [apiv1.usersGet, apiv1.usersList, apiv1.usersCreate, apiv1.usersUpdate,
    apiv1.usersDelete, apiv1.usersDeleteCollection, apiv1.secretsGet, apiv1.secretsList,
    apiv1.secretsCreate, apiv1.secretsUpdate, apiv1.secretsDelete,
    apiv1.secretsDeleteCollection, apiv1.policiesGet, apiv1.policiesList,
    apiv1.policiesCreate, apiv1.policiesUpdate, apiv1.policiesDelete,
    apiv1.policiesDeleteCollection, authzv1.authzAuthorize,
    rest.RESTClient.Get, rest.RESTClient.Post, rest.RESTClient.Put, rest.RESTClient.Delete,
    rest.RESTClient.Verb, hu.1, hu.2, hup.1, hup.2, huu.1, huu.2, hud.1, hud.2,
    hsg.1, hsg.2, hsp.1, hsp.2, hsu.1, hsu.2, hsd.1, hsd.2,
    hpg.1, hpg.2, hpp.1, hpp.2, hpu.1, hpu.2, hpd.1, hpd.2, haz.1, haz.2]

/-- C3 witness: concrete operations on a credential-free client. -/
theorem C3_typed_operations_witness :
    (apiv1.usersGet ({} : rest.RESTClient) "colin" "o").1.verb = "GET" ∧
    (apiv1.usersGet ({} : rest.RESTClient) "colin" "o").1.resource = "users" ∧
    (apiv1.secretsCreate ({} : rest.RESTClient) "s" "o").1.verb = "POST" ∧
    (apiv1.policiesDelete ({} : rest.RESTClient) "p" "o").1.verb = "DELETE" ∧
    (authzv1.authzAuthorize ({} : rest.RESTClient) "req" "o").1.resource = "authz" ∧
    (authzv1.authzAuthorize ({} : rest.RESTClient) "req" "o").2 = ResultKind.authzResponse := by
  have hthm := C3_typed_operations ({} : rest.RESTClient) (by decide)
  obtain ⟨h1, h2, h3, h4, h5, h6, h7, h8, h9, h10, h11, h12, h13, h14, h15, h16, h17,
    h18, h19⟩ := hthm
  exact ⟨(h1 "colin" "o").1, (h1 "colin" "o").2.1, (h9 "s" "o").1, (h17 "p" "o").1,
    (h19 "req" "o").2.1, (h19 "req" "o").2.2⟩

theorem loadTLSFiles_preserves (env : rest.Env) (c c' : rest.Config)
    (h : rest.LoadTLSFiles env c = .ok c') :
    c'.tlsClientConfig.Insecure = c.tlsClientConfig.Insecure ∧
    c'.tlsClientConfig.ServerName = c.tlsClientConfig.ServerName := by
  unfold rest.LoadTLSFiles at h
  rcases hca : rest.dataFromSliceOrFile env c.tlsClientConfig.CAData c.tlsClientConfig.CAFile
    with e | ca
  · simp [hca] at h
  · rcases hcert : rest.dataFromSliceOrFile env c.tlsClientConfig.CertData
      c.tlsClientConfig.CertFile with e | cert
    · simp [hca, hcert] at h
    · rcases hkey : rest.dataFromSliceOrFile env c.tlsClientConfig.KeyData
        c.tlsClientConfig.KeyFile with e | key
      · simp [hca, hcert, hkey] at h
      · simp only [hca, hcert, hkey, Except.ok.injEq] at h
        subst h
        exact ⟨rfl, rfl⟩

/-- C5: TLSConfigFor returns no TLS config and no error when no transport
security is requested; errors when both a root-certificate source and the
insecure flag are set; and every returned TLS config has minimum version TLS
1.2, InsecureSkipVerify equal to the Insecure flag, and the configured server
name. -/
theorem C5_tls_config (env : rest.Env) (c : rest.Config) :
    (c.HasCA = false → c.HasCertAuth = false → c.tlsClientConfig.Insecure = false →
      c.tlsClientConfig.ServerName = "" → rest.TLSConfigFor env c = .ok none) ∧
    (c.HasCA = true → c.tlsClientConfig.Insecure = true →
      rest.TLSConfigFor env c = .error rest.caWithInsecureMsg) ∧
    (∀ cfg, rest.TLSConfigFor env c = .ok (some cfg) →
      cfg.MinVersion = rest.VersionTLS12 ∧
      cfg.InsecureSkipVerify = c.tlsClientConfig.Insecure ∧
      cfg.ServerName = c.tlsClientConfig.ServerName) := by
  refine ⟨?_, ?_, ?_⟩
  · intro h1 h2 h3 h4
    unfold rest.TLSConfigFor
    simp [h1, h2, h3, h4]
  · intro h1 h2
    unfold rest.TLSConfigFor
    simp [h1, h2]
  · intro cfg hcfg
    unfold rest.TLSConfigFor at hcfg
    by_cases hf : (!(c.HasCA || c.HasCertAuth || c.tlsClientConfig.Insecure
        || c.tlsClientConfig.ServerName.length != 0)) = true
    · rw [if_pos hf] at hcfg
      exact absurd hcfg (by simp)
    · rw [if_neg hf] at hcfg
      by_cases hins : (c.HasCA && c.tlsClientConfig.Insecure) = true
      · rw [if_pos hins] at hcfg
        exact absurd hcfg (by simp)
      · rw [if_neg hins] at hcfg
        rcases hload : rest.LoadTLSFiles env c with e | c'
        · simp [hload] at hcfg
        · obtain ⟨hIns, hSrv⟩ := loadTLSFiles_preserves env c c' hload
          simp only [hload] at hcfg
          by_cases hcert : c'.HasCertAuth = true
          · simp only [hcert, if_true] at hcfg
            rcases hx : env.x509KeyPair c'.tlsClientConfig.CertData c'.tlsClientConfig.KeyData
              with e | u
            · simp [hx] at hcfg
            · simp only [hx, Except.ok.injEq, Option.some.injEq] at hcfg
              subst hcfg
              by_cases hca2 : c'.HasCA = true <;> simp [hca2, hIns, hSrv]
          · simp only [hcert, if_false, Bool.false_eq_true] at hcfg
            simp only [Except.ok.injEq, Option.some.injEq] at hcfg
            subst hcfg
            by_cases hca2 : c'.HasCA = true <;> simp [hca2, hIns, hSrv]

/-- C5 witness: a config with only a server name yields a TLS config with the
stated fields; pairing CA data with the insecure flag yields the error. -/
theorem C5_tls_config_witness :
    rest.TLSConfigFor
      { urlParse := fun _ => .error "x", readFile := fun _ => .error "x",
        x509KeyPair := fun _ _ => .ok () }
      ({ tlsClientConfig := { ServerName := "srv" } } : rest.Config) =
      .ok (some { MinVersion := 771, InsecureSkipVerify := false, ServerName := "srv" }) ∧
    rest.TLSConfigFor
      { urlParse := fun _ => .error "x", readFile := fun _ => .error "x",
        x509KeyPair := fun _ _ => .ok () }
      ({ tlsClientConfig := { Insecure := true, CAData := [65] } } : rest.Config) =
      .error rest.caWithInsecureMsg := by
  have h := C5_tls_config
    { urlParse := fun _ => .error "x", readFile := fun _ => .error "x",
      x509KeyPair := fun _ _ => .ok () }
    ({ tlsClientConfig := { Insecure := true, CAData := [65] } } : rest.Config)
  exact ⟨rfl, h.2.1 (by decide) (by decide)⟩

/-- C6: Load on an empty byte slice returns the default config (non-nil empty
Server and AuthInfo) with no error; on bytes that fail YAML unmarshalling it
returns that error; LoadFromFile returns an error exactly when the file read
or the load of its contents fails, and otherwise returns the loaded config
with both LocationOfOrigin fields set to the filename. -/
theorem C6_config_loading (cenv : clientcmd.Env) (data bytes : List Nat) (e filename : String)
    (cfg : clientcmd.Config) (ai : clientcmd.AuthInfo) (srv : clientcmd.Server) :
    (clientcmd.Load cenv [] = .ok clientcmd.NewConfig ∧
      clientcmd.NewConfig.AuthInfo = some {} ∧ clientcmd.NewConfig.Server = some {}) ∧
    (data ≠ [] → cenv.yamlUnmarshal data clientcmd.NewConfig = .error e →
      clientcmd.Load cenv data = .error e) ∧
    (cenv.readFile filename = .error e →
      clientcmd.LoadFromFile cenv filename = some (.error e)) ∧
    (cenv.readFile filename = .ok bytes → clientcmd.Load cenv bytes = .error e →
      clientcmd.LoadFromFile cenv filename = some (.error e)) ∧
    (cenv.readFile filename = .ok bytes → clientcmd.Load cenv bytes = .ok cfg →
      cfg.AuthInfo = some ai → cfg.Server = some srv →
      clientcmd.LoadFromFile cenv filename = some (.ok { cfg with
        AuthInfo := some { ai with LocationOfOrigin := filename },
        Server := some { srv with LocationOfOrigin := filename } })) ∧
    (∀ out, clientcmd.LoadFromFile cenv filename = some (.ok out) →
      ∃ bs cfg2, cenv.readFile filename = .ok bs ∧ clientcmd.Load cenv bs = .ok cfg2 ∧
        (out.AuthInfo.map fun a => a.LocationOfOrigin) = some filename ∧
        (out.Server.map fun s => s.LocationOfOrigin) = some filename) := by
  refine ⟨⟨by simp [clientcmd.Load], rfl, rfl⟩, ?_, ?_, ?_, ?_, ?_⟩
  · intro hne hy
    simp [clientcmd.Load, hne, hy]
  · intro hr
    simp [clientcmd.LoadFromFile, hr]
  · intro hr hl
    simp [clientcmd.LoadFromFile, hr, hl]
  · intro hr hl hai hsrv
    simp [clientcmd.LoadFromFile, hr, hl, hai, hsrv]
  · intro out hout
    unfold clientcmd.LoadFromFile at hout
    rcases hr : cenv.readFile filename with e2 | bs
    · simp [hr] at hout
    · simp only [hr] at hout
      rcases hl : clientcmd.Load cenv bs with e2 | cfg2
      · simp [hl] at hout
      · simp only [hl] at hout
        rcases hai : cfg2.AuthInfo with _ | ai2
        · simp [hai] at hout
        · rcases hsrv : cfg2.Server with _ | srv2
          · simp [hai, hsrv] at hout
          · simp only [hai, hsrv, Option.some.injEq, Except.ok.injEq] at hout
            subst hout
            exact ⟨bs, cfg2, rfl, hl, rfl, rfl⟩

/-- C6 witness: loading from a readable file with trivially succeeding YAML
decoding returns the config with both locations set. -/
theorem C6_config_loading_witness :
    clientcmd.LoadFromFile
      { readFile := fun _ => .ok [1], yamlUnmarshal := fun _ cfg => .ok cfg,
        canOpen := fun _ => true } "f" =
      some (.ok
        { APIVersion := "",
          AuthInfo := some { LocationOfOrigin := "f" },
          Server := some { LocationOfOrigin := "f" } }) := by
  have h := (C6_config_loading
    { readFile := fun _ => .ok [1], yamlUnmarshal := fun _ cfg => .ok cfg,
      canOpen := fun _ => true } [] [1] "e" "f" clientcmd.NewConfig {} {}).2.2.2.2.1
  exact h rfl rfl rfl rfl

/-- C7: the User-Agent string is `<command>/<version> (<os>/<arch>)
iam/<commit>` with the command the base name of the invoking path (or
"unknown" when empty), the version the portion before the first '-' (or
"unknown" when empty), and the commit truncated to 7 characters (or "unknown"
when empty). -/
theorem C7_user_agent (argv0 gitVersion goos goarch gitCommit : String) :
    rest.DefaultUserAgent argv0 gitVersion goos goarch gitCommit =
      rest.adjustCommand argv0 ++ "/" ++ rest.adjustVersion gitVersion ++ " (" ++ goos ++ "/"
        ++ goarch ++ ") iam/" ++ rest.adjustCommit gitCommit ∧
    rest.adjustCommand argv0 = (if argv0 = "" then "unknown" else goBase argv0) ∧
    rest.adjustVersion gitVersion =
      (if gitVersion = "" then "unknown"
       else String.mk (gitVersion.data.takeWhile (fun ch => ch != '-'))) ∧
    rest.adjustCommit gitCommit =
      (if gitCommit = "" then "unknown"
       else if gitCommit.length > 7 then String.mk (gitCommit.data.take 7) else gitCommit) := by
  refine ⟨rfl, ?_, ?_, ?_⟩
  · unfold rest.adjustCommand
    by_cases h : argv0 = "" <;> simp [h, string_length_eq_zero_iff]
  · have hdash : ("-" : String).data = ['-'] := rfl
    unfold rest.adjustVersion goSplitN2
    rw [hdash, splitFirstAux_single]
    by_cases h : gitVersion = ""
    · simp [h]
    · have hlen : ¬ gitVersion.length = 0 := by simp [string_length_eq_zero_iff, h]
      rw [if_neg hlen, if_neg h]
      by_cases hm : '-' ∈ gitVersion.data
      · rw [if_pos hm]
        simp
      · rw [if_neg hm]
        simp [takeWhile_ne_of_not_mem _ _ hm]
  · unfold rest.adjustCommit
    by_cases h : gitCommit = "" <;> simp [h, string_length_eq_zero_iff]

/-- C7 witness: a concrete User-Agent string. -/
theorem C7_user_agent_witness :
    rest.DefaultUserAgent "/usr/bin/iamctl" "v1.0.0-beta" "linux" "amd64" "0123456789ab" =
      "iamctl/v1.0.0 (linux/amd64) iam/0123456" := by
  have h := (C7_user_agent "/usr/bin/iamctl" "v1.0.0-beta" "linux" "amd64" "0123456789ab").1
  exact h.trans (by decide)

/-- C8: every client RESTClientFor accepts has its agent configured to retry
exactly MaxRetries times with interval RetryInterval, only on HTTP 500. -/
theorem C8_retry_policy (env : rest.Env) (config : rest.Config) (rc : rest.RESTClient)
    (h : rest.RESTClientFor env config = .ok rc) :
    rc.Client.retryCount = config.MaxRetries ∧
    rc.Client.retryInterval = config.RetryInterval ∧
    rc.Client.retryStatuses = [rest.StatusInternalServerError] := by
  unfold rest.RESTClientFor at h
  rcases hgv : config.contentConfig.GroupVersion with _ | gv
  · simp only [hgv] at h
    exact Except.noConfusion h
  · simp only [hgv] at h
    by_cases hn : (!config.contentConfig.Negotiator) = true
    · rw [if_pos hn] at h
      exact Except.noConfusion h
    · rw [if_neg hn] at h
      rcases hurl : rest.defaultServerURLFor env config with e | pr
      · simp only [hurl] at h
        exact Except.noConfusion h
      · obtain ⟨baseURL, vap⟩ := pr
        simp only [hurl] at h
        rcases htls : rest.TLSConfigFor env config with e | tlsOpt
        · simp only [htls] at h
          exact Except.noConfusion h
        · simp only [htls, Except.ok.injEq] at h
          subst h
          exact ⟨rfl, rfl, rfl⟩

/-- C8 witness: a concrete accepted config yields an agent retrying 3 times
with interval 5 on status 500 only. -/
theorem C8_retry_policy_witness :
    ∃ rc, rest.RESTClientFor
        { urlParse := fun _ => .ok { Scheme := "http", Host := "h:8080" },
          readFile := fun _ => .error "no",
          x509KeyPair := fun _ _ => .ok () }
        { Host := "http://h:8080",
          contentConfig :=
            { GroupVersion := some { Group := "iam.api", Version := "v1" },
              Negotiator := true },
          MaxRetries := 3,
          RetryInterval := 5 } = .ok rc ∧
      rc.Client.retryCount = 3 ∧ rc.Client.retryInterval = 5 ∧
      rc.Client.retryStatuses = [500] := by
  have hok : ∃ rc, rest.RESTClientFor
      { urlParse := fun _ => .ok { Scheme := "http", Host := "h:8080" },
        readFile := fun _ => .error "no",
        x509KeyPair := fun _ _ => .ok () }
      { Host := "http://h:8080",
        contentConfig :=
          { GroupVersion := some { Group := "iam.api", Version := "v1" },
            Negotiator := true },
        MaxRetries := 3,
        RetryInterval := 5 } = .ok rc := ⟨_, rfl⟩
  obtain ⟨rc, hrc⟩ := hok
  have h := C8_retry_policy _ _ _ hrc
  exact ⟨rc, hrc, h.1, h.2.1, h.2.2⟩

/-- C9: the sanitized printing of a Config replaces a non-empty Password,
BearerToken or SecretKey by the redaction marker, and its output does not
depend on those values (noninterference); likewise TLSClientConfig printing
replaces non-empty CertData/KeyData, so printing cannot leak these
credentials. -/
theorem C9_credential_redaction (c : rest.Config) (p p' t t' k k' : String)
    (d kd : List Nat) (tc : rest.TLSClientConfig) :
    ((p = "" ↔ p' = "") → (t = "" ↔ t' = "") → (k = "" ↔ k' = "") →
      rest.Config.string { c with Password := p, BearerToken := t, SecretKey := k } =
        rest.Config.string { c with Password := p', BearerToken := t', SecretKey := k' }) ∧
    (p ≠ "" →
      (rest.sanitizedConfig { c with Password := p }).Password = "--- REDACTED ---") ∧
    (t ≠ "" →
      (rest.sanitizedConfig { c with BearerToken := t }).BearerToken = "--- REDACTED ---") ∧
    (k ≠ "" →
      (rest.sanitizedConfig { c with SecretKey := k }).SecretKey = "--- REDACTED ---") ∧
    (∀ d' kd', (d = [] ↔ d' = []) → (kd = [] ↔ kd' = []) →
      rest.TLSClientConfig.string { tc with CertData := d, KeyData := kd } =
        rest.TLSClientConfig.string { tc with CertData := d', KeyData := kd' }) ∧
    (d ≠ [] →
      (rest.sanitizedTLSClientConfig { tc with CertData := d }).CertData =
        utf8Bytes "--- TRUNCATED ---") ∧
    (kd ≠ [] →
      (rest.sanitizedTLSClientConfig { tc with KeyData := kd }).KeyData =
        utf8Bytes "--- REDACTED ---") := by
  refine ⟨?_, ?_, ?_, ?_, ?_, ?_, ?_⟩
  · intro hp ht hk
    have hs : rest.sanitizedConfig { c with Password := p, BearerToken := t, SecretKey := k } =
        rest.sanitizedConfig { c with Password := p', BearerToken := t', SecretKey := k' } := by
      unfold rest.sanitizedConfig rest.CopyConfig
      by_cases h1 : p = "" <;> by_cases h2 : t = "" <;> by_cases h3 : k = "" <;>
        simp_all
    unfold rest.Config.string
    rw [hs]
  · intro hp
    simp only [rest.sanitizedConfig, rest.CopyConfig]
    split_ifs <;> simp_all
  · intro ht
    simp only [rest.sanitizedConfig, rest.CopyConfig]
    split_ifs <;> simp_all
  · intro hk
    simp only [rest.sanitizedConfig, rest.CopyConfig]
    split_ifs <;> simp_all
  · intro d' kd' hd hkd
    have hs : rest.sanitizedTLSClientConfig { tc with CertData := d, KeyData := kd } =
        rest.sanitizedTLSClientConfig { tc with CertData := d', KeyData := kd' } := by
      unfold rest.sanitizedTLSClientConfig
      by_cases h1 : d = [] <;> by_cases h2 : kd = [] <;> simp_all
    unfold rest.TLSClientConfig.string
    rw [hs]
  · intro hd
    simp only [rest.sanitizedTLSClientConfig]
    split_ifs <;> simp_all
  · intro hkd
    simp only [rest.sanitizedTLSClientConfig]
    split_ifs <;> simp_all

/-- C9 witness: two configs differing only in their non-empty credentials
print identically, and the sanitized fields carry the markers. -/
theorem C9_credential_redaction_witness :
    rest.Config.string
        { Host := "h", Password := "s3cret", BearerToken := "tok1", SecretKey := "key1" } =
      rest.Config.string
        { Host := "h", Password := "other", BearerToken := "tok2", SecretKey := "key2" } ∧
    (rest.sanitizedConfig
        ({ Host := "h", Password := "s3cret" } : rest.Config)).Password = "--- REDACTED ---" := by
  have h := C9_credential_redaction ({ Host := "h" } : rest.Config)
    "s3cret" "other" "tok1" "tok2" "key1" "key2" [] [] {}
  exact ⟨h.1 (by simp) (by simp) (by simp), (C9_credential_redaction
    ({ Host := "h" } : rest.Config) "s3cret" "other" "tok1" "tok2" "key1" "key2" [] [] {}).2.1
    (by simp)⟩

/-- C10: once a request has a recorded error, every subsequent builder call
among Prefix, Suffix, Resource, SubResource, Name, AbsPath, RequestURI,
Param, VersionedParams and Timeout returns the request unchanged, so the
error observed at the end is the first one recorded. -/
theorem C10_error_latching (env : rest.Env) (r : rest.Request) (e : String)
    (segs names : List String) (s n uri k v q : String) (d : Int)
    (h : r.err = some e) :
    r.Prefix segs = r ∧ r.Suffix segs = r ∧ r.Resource s = r ∧ r.SubResource names = r ∧
    r.Name n = r ∧ r.AbsPath segs = r ∧ rest.Request.RequestURI env r uri = r ∧
    r.Param k v = r ∧ r.VersionedParams q = r ∧ r.Timeout d = r := by
  have hs : r.err.isSome = true := by simp [h]
  refine ⟨?_, ?_, ?_, ?_, ?_, ?_, ?_, ?_, ?_, ?_⟩ <;>
    simp [rest.Request.Prefix, rest.Request.Suffix, rest.Request.Resource,
      rest.Request.SubResource, rest.Request.Name, rest.Request.AbsPath,
      rest.Request.RequestURI, rest.Request.Param, rest.Request.VersionedParams,
      rest.Request.Timeout, hs]

/-- C10 witness: a request carrying an error is left untouched by the
builder setters. -/
theorem C10_error_latching_witness :
    ({ c := {}, err := some "boom" } : rest.Request).Prefix ["a", "b"] =
      ({ c := {}, err := some "boom" } : rest.Request) ∧
    ({ c := {}, err := some "boom" } : rest.Request).Name "n" =
      ({ c := {}, err := some "boom" } : rest.Request) ∧
    ({ c := {}, err := some "boom" } : rest.Request).Timeout 7 =
      ({ c := {}, err := some "boom" } : rest.Request) := by
  have h := C10_error_latching
    { urlParse := fun _ => .error "x", readFile := fun _ => .error "x",
      x509KeyPair := fun _ _ => .ok () }
    ({ c := {}, err := some "boom" } : rest.Request) "boom" ["a", "b"] ["s"] "res" "n" "u"
    "k" "v" "q" 7 rfl
  exact ⟨h.1, h.2.2.2.2.1, h.2.2.2.2.2.2.2.2.2⟩
